import Mathlib

/-!
Verification of the cascading "retry" neural network of `src/src/neural/nn/retry_nn.rs`.

Modelling conventions:
* `f64` values are modelled by exact rationals (`ℚ`); the constants `0.2`, `0.05`,
  `1.0`, `0.0` of the source become `1/5`, `1/20`, `1`, `0`.
* Leaf stage networks (`ClassicNeuralNetwork` / `TrainableClassicNeuralNetwork`) are
  external collaborators per the spec; they are modelled by an abstract state type `σ`
  together with a record `StageOps` of their operations.
* Fallible code is modelled with `Option`; a Rust `unwrap`/`panic` corresponds to `none`
  (or to an explicit abort value where the claim is about the abort itself).
* Filesystem state is modelled as the list of directory paths materialised by leaf
  saves, a path being a list of components.
-/

/-- Activation kinds, from `src/src/neural/nn/shape.rs` usage sites
(`ReLU`, `Sigmoid`, `Tanh`, `Softmax`). -/
inductive ActivationType where
  | reLU
  | sigmoid
  | tanhAct
  | softmax
deriving DecidableEq

/-- Activation descriptor: a kind plus an optional softmax temperature. -/
structure ActivationData where
  activation_type : ActivationType
  temperature : Option ℚ
deriving DecidableEq

/-- `LayerType` has a single `Dense { input_size, output_size }` variant. -/
inductive LayerType where
  | dense (input_size : ℕ) (output_size : ℕ)
deriving DecidableEq

/-- `LayerShape { layer_type, activation }`. -/
structure LayerShape where
  layer_type : LayerType
  activation : ActivationData
deriving DecidableEq

def LayerShape.input_size (l : LayerShape) : ℕ :=
  match l.layer_type with
  | .dense i _ => i

def LayerShape.output_size (l : LayerShape) : ℕ :=
  match l.layer_type with
  | .dense _ o => o

/-- `NeuralNetworkShape { layers }`. -/
structure NeuralNetworkShape where
  layers : List LayerShape
deriving DecidableEq

/-- Modelled from the spec: `AnnotatedNeuralNetworkShape`
(`src/src/gen/pheno/annotated_nn_shape.rs` is absent from `src/`); it wraps the layer
list of a shape, `change_layer` replaces the layer at an index, and
`to_neural_network_shape` returns the resulting shape. -/
structure AnnotatedNeuralNetworkShape where
  layers : List LayerShape
deriving DecidableEq

def AnnotatedNeuralNetworkShape.new (s : NeuralNetworkShape) : AnnotatedNeuralNetworkShape :=
  ⟨s.layers⟩

def AnnotatedNeuralNetworkShape.change_layer (a : AnnotatedNeuralNetworkShape) (i : ℕ)
    (l : LayerShape) : AnnotatedNeuralNetworkShape :=
  ⟨a.layers.set i l⟩

def AnnotatedNeuralNetworkShape.to_neural_network_shape (a : AnnotatedNeuralNetworkShape) :
    NeuralNetworkShape :=
  ⟨a.layers⟩

/-- `add_internal_dimensions` (retry_nn.rs lines 105-135).  The source unwraps
`shape.layers.first()`, panicking on an empty shape; this is modelled by `Option`. -/
def add_internal_dimensions (shape : NeuralNetworkShape) : Option NeuralNetworkShape := do
  let annotated_shape := AnnotatedNeuralNetworkShape.new shape
  let first_layer ← shape.layers.head?
  let internal_layer := first_layer
  let new_dense_layer_type : LayerShape :=
    { layer_type := .dense internal_layer.input_size (internal_layer.output_size + 1),
      activation := internal_layer.activation }
  let annotated_shape := annotated_shape.change_layer 0 new_dense_layer_type
  let annotated_shape := (shape.layers.drop 1).enum.foldl
    (fun acc p =>
      acc.change_layer (p.1 + 1)
        { layer_type := .dense (p.2.input_size + 1) (p.2.output_size + 1),
          activation := p.2.activation })
    annotated_shape
  some annotated_shape.to_neural_network_shape

/-- The transform applied to the first layer: output widened by one. -/
def augFirstLayer (l : LayerShape) : LayerShape :=
  { layer_type := .dense l.input_size (l.output_size + 1), activation := l.activation }

/-- The transform applied to every later layer: input and output widened by one. -/
def augRestLayer (l : LayerShape) : LayerShape :=
  { layer_type := .dense (l.input_size + 1) (l.output_size + 1), activation := l.activation }

lemma getLast?_map_fn {α β : Type} (f : α → β) (l : List α) :
    (l.map f).getLast? = (l.getLast?).map f := by
  induction l with
  | nil => rfl
  | cons a t ih =>
    cases t with
    | nil => rfl
    | cons b u =>
      simp only [List.map_cons, List.getLast?_cons_cons] at *
      exact ih

lemma set_append_length {α : Type} (pre : List α) (x y : α) (xs : List α) :
    (pre ++ x :: xs).set pre.length y = pre ++ y :: xs := by
  induction pre with
  | nil => simp
  | cons a t ih => simp [List.set, ih]

lemma foldl_change_layer_enumFrom (g : LayerShape → LayerShape) :
    ∀ (t : List LayerShape) (k : ℕ) (pre : List LayerShape), pre.length = k + 1 →
      (List.enumFrom k t).foldl
          (fun (acc : AnnotatedNeuralNetworkShape) p =>
            acc.change_layer (p.1 + 1) (g p.2))
          ⟨pre ++ t⟩
        = ⟨pre ++ t.map g⟩ := by
  intro t
  induction t with
  | nil => intro k pre _; simp
  | cons x xs ih =>
    intro k pre hpre
    have hset : (pre ++ x :: xs).set (k + 1) (g x) = pre ++ g x :: xs := by
      rw [← hpre]; exact set_append_length pre x (g x) xs
    have hlen : (pre ++ [g x]).length = (k + 1) + 1 := by
      simp [hpre]
    calc (List.enumFrom k (x :: xs)).foldl
            (fun (acc : AnnotatedNeuralNetworkShape) p =>
              acc.change_layer (p.1 + 1) (g p.2)) ⟨pre ++ x :: xs⟩
        = (List.enumFrom (k + 1) xs).foldl
            (fun (acc : AnnotatedNeuralNetworkShape) p =>
              acc.change_layer (p.1 + 1) (g p.2)) ⟨(pre ++ [g x]) ++ xs⟩ := by
          simp [List.enumFrom, AnnotatedNeuralNetworkShape.change_layer, hset]
      _ = ⟨(pre ++ [g x]) ++ xs.map g⟩ := ih (k + 1) (pre ++ [g x]) hlen
      _ = ⟨pre ++ (x :: xs).map g⟩ := by simp

/-- Closed form of `add_internal_dimensions` on a non-empty shape. -/
lemma add_internal_dimensions_cons (a : LayerShape) (t : List LayerShape) :
    add_internal_dimensions ⟨a :: t⟩ = some ⟨augFirstLayer a :: t.map augRestLayer⟩ := by
  have hfold := foldl_change_layer_enumFrom augRestLayer t 0 [augFirstLayer a] (by simp)
  simp only [add_internal_dimensions, AnnotatedNeuralNetworkShape.new,
    AnnotatedNeuralNetworkShape.change_layer, AnnotatedNeuralNetworkShape.to_neural_network_shape,
    List.head?, Option.bind_eq_bind, Option.some_bind, List.drop_one, List.tail_cons,
    List.enum]
  simp only [List.set] at *
  simpa [augFirstLayer, augRestLayer] using congrArg AnnotatedNeuralNetworkShape.layers hfold

/-- **C3.** For every non-empty shape `S` with `L` layers, `add_internal_dimensions`
returns a shape with exactly `L` layers in which layer 0 keeps its input width, gets
output width `S[0].output + 1`, every subsequent layer `i` has input width
`S[i].input + 1` and output width `S[i].output + 1`, every layer's activation is
unchanged, and the final layer's output width is the original final output width
plus one (so dropping the last output unit recovers it). -/
theorem retry_c3 (S : NeuralNetworkShape) (h : S.layers ≠ []) :
    ∃ S', add_internal_dimensions S = some S' ∧
      S'.layers.length = S.layers.length ∧
      (∀ l, S.layers[0]? = some l → ∃ l', S'.layers[0]? = some l' ∧
        l'.input_size = l.input_size ∧ l'.output_size = l.output_size + 1 ∧
        l'.activation = l.activation) ∧
      (∀ i l, 0 < i → S.layers[i]? = some l → ∃ l', S'.layers[i]? = some l' ∧
        l'.input_size = l.input_size + 1 ∧ l'.output_size = l.output_size + 1 ∧
        l'.activation = l.activation) ∧
      (∀ l l', S.layers.getLast? = some l → S'.layers.getLast? = some l' →
        l'.output_size = l.output_size + 1) := by
  obtain ⟨a, t, hS⟩ : ∃ a t, S.layers = a :: t := by
    cases hl : S.layers with
    | nil => exact absurd hl h
    | cons a t => exact ⟨a, t, rfl⟩
  obtain ⟨layers, rfl⟩ : ∃ ls, S = ⟨ls⟩ := ⟨S.layers, rfl⟩
  simp only at hS
  subst hS
  refine ⟨⟨augFirstLayer a :: t.map augRestLayer⟩, add_internal_dimensions_cons a t, by simp, ?_, ?_, ?_⟩
  · intro l hl
    simp only [List.getElem?_cons_zero, Option.some_inj] at hl
    exact ⟨augFirstLayer a, by simp, by rw [← hl]; rfl, by rw [← hl]; rfl, by rw [← hl]; rfl⟩
  · intro i l hi hl2
    obtain ⟨j, rfl⟩ : ∃ j, i = j + 1 := ⟨i - 1, (Nat.succ_pred_eq_of_pos hi).symm⟩
    simp only [List.getElem?_cons_succ] at hl2 ⊢
    refine ⟨augRestLayer l, ?_, rfl, rfl, rfl⟩
    simp [List.getElem?_map, hl2]
  · intro l l' hl hl'
    cases t with
    | nil =>
      have h1 : a = l := by simpa using hl
      have h2 : augFirstLayer a = l' := by simpa using hl'
      rw [← h1, ← h2]
      rfl
    | cons b u =>
      rw [List.getLast?_cons_cons] at hl
      rw [show (augFirstLayer a :: (b :: u).map augRestLayer).getLast?
            = ((b :: u).map augRestLayer).getLast? from List.getLast?_cons_cons,
        getLast?_map_fn, hl] at hl'
      have h3 : augRestLayer l = l' := Option.some.inj hl'
      rw [← h3]
      rfl

/-- A concrete two-layer shape used in witnesses. -/
def shapeDemo : NeuralNetworkShape :=
  ⟨[{ layer_type := .dense 3 3, activation := ⟨.reLU, none⟩ },
    { layer_type := .dense 3 3, activation := ⟨.reLU, none⟩ }]⟩

/-- Witness for C3 at the concrete two-layer 3→3 shape. -/
theorem retry_c3_witness :
    shapeDemo.layers ≠ [] ∧
    (∃ S', add_internal_dimensions shapeDemo = some S' ∧
      S'.layers.length = shapeDemo.layers.length ∧
      (∀ l, shapeDemo.layers[0]? = some l → ∃ l', S'.layers[0]? = some l' ∧
        l'.input_size = l.input_size ∧ l'.output_size = l.output_size + 1 ∧
        l'.activation = l.activation) ∧
      (∀ i l, 0 < i → shapeDemo.layers[i]? = some l → ∃ l', S'.layers[i]? = some l' ∧
        l'.input_size = l.input_size + 1 ∧ l'.output_size = l.output_size + 1 ∧
        l'.activation = l.activation) ∧
      (∀ l l', shapeDemo.layers.getLast? = some l → S'.layers.getLast? = some l' →
        l'.output_size = l.output_size + 1)) :=
  ⟨by decide, retry_c3 shapeDemo (by decide)⟩

/-- A filesystem path, as a list of components (Rust builds them with
`append_dir`, joining with a slash). -/
def DirPath : Type := List String
deriving DecidableEq

/-- `Directory` of `src/src/neural/nn/directory.rs` usage: `Internal` marks a scratch
path, `User` a caller-owned (persisted) path. -/
inductive ModelDirectory where
  | internal (p : List String)
  | user (p : List String)
deriving DecidableEq

/-- `Directory::path()`: the underlying path of either variant. -/
def ModelDirectory.path : ModelDirectory → List String
  | .internal p => p
  | .user p => p

/-- Abstract operations of a leaf stage network
(`ClassicNeuralNetwork` / `TrainableClassicNeuralNetwork`), consumed as an opaque
collaborator per the spec: construction, shape, predict, train, batch train, save. -/
structure StageOps (σ : Type) where
  newStage : NeuralNetworkShape → List String → σ
  shapeOf : σ → NeuralNetworkShape
  predict : σ → List ℚ → List ℚ
  train : σ → List (List ℚ) → List (List ℚ) → ℚ → ℕ → ℚ → Bool → ℚ → ℚ × σ
  trainBatch : σ → List (List ℚ) → List (List ℚ) → ℚ → ℕ → ℚ → ℕ → σ
  saveStage : σ → List String → σ

/-- A wrapped (trainable) network: either a leaf `ClassicNeuralNetwork` or a
`RetryNeuralNetwork` cascade node `{primary_nn, backup_nn, shape, model_directory,
past_internal_model_directories}`.  By construction (`new`, `from_disk`) the primary
of a cascade node is always a leaf stage. -/
inductive TRNN (σ : Type) where
  | classic (s : σ)
  | retry (primary_nn : σ) (backup_nn : TRNN σ) (shape : NeuralNetworkShape)
      (model_directory : ModelDirectory) (past_internal_model_directories : List (List String))
deriving DecidableEq

/-- `RetryNeuralNetwork::forward` (retry_nn.rs lines 93-102), together with the
dispatch of `backup_nn.predict`: escalate to the backup when the last element of the
primary output is within `0.2` of `1.0`, else drop the last element.  The source
indexes `primary_output[len - 1]`, panicking on an empty output; the model totalises
that read with `getLastD 0`. -/
def RetryNeuralNetwork.forward (ops : StageOps σ) : TRNN σ → List ℚ → List ℚ
  | .classic s, input => ops.predict s input
  | .retry primary_nn backup_nn _ _ _, input =>
    let primary_output := ops.predict primary_nn input
    if |primary_output.getLastD 0 - 1| < 1/5 then
      RetryNeuralNetwork.forward ops backup_nn input
    else
      primary_output.dropLast

/-- `TrainableRetryNeuralNetwork::forward` (retry_nn.rs lines 310-319): same routing
but the escalation test is `|signal| < 0.05` against reference `0.0`. -/
def TrainableRetryNeuralNetwork.forward (ops : StageOps σ) : TRNN σ → List ℚ → List ℚ
  | .classic s, input => ops.predict s input
  | .retry primary_nn backup_nn _ _ _, input =>
    let primary_output := ops.predict primary_nn input
    if |primary_output.getLastD 0| < 1/20 then
      TrainableRetryNeuralNetwork.forward ops backup_nn input
    else
      primary_output.dropLast

/-- The correct-output counter that appears (three times) in the source: the number
of positions of `prediction.zip target` whose difference is within `tolerance`. -/
def countWithinTolerance (tolerance : ℚ) (prediction target : List ℚ) : ℕ :=
  (prediction.zip target).foldl
    (fun nb_correct_outputs p =>
      if |p.1 - p.2| < tolerance then nb_correct_outputs + 1 else nb_correct_outputs)
    0

/-- The augmented primary training set of `TrainableRetryNeuralNetwork::train`
(retry_nn.rs lines 403-426): each target gets an escalation label appended, `0` when
the probe prediction agreed with the target on `target.len()` positions, else `1`. -/
def TrainableRetryNeuralNetwork.primaryTrainingSet (probePredict : List ℚ → List ℚ)
    (tolerance : ℚ) (inputs targets : List (List ℚ)) :
    List (List ℚ) × List (List ℚ) :=
  (((inputs.zip targets).map (fun p => (p.1, p.2, probePredict p.1))).map
    (fun q =>
      let nb_correct_outputs := countWithinTolerance tolerance q.2.2 q.2.1
      let t := q.2.1 ++ (if nb_correct_outputs = q.2.1.length then [(0 : ℚ)] else [(1 : ℚ)])
      (q.1, t))).unzip

/-- The filtered backup training set of `TrainableRetryNeuralNetwork::train`
(retry_nn.rs lines 439-462): keep the examples the trained primary answers fully
correctly, and strip the final (escalation) entry off each target. -/
def TrainableRetryNeuralNetwork.backupTrainingSet (primaryPredict : List ℚ → List ℚ)
    (tolerance : ℚ) (primary_inputs primary_targets : List (List ℚ)) :
    List (List ℚ) × List (List ℚ) :=
  ((((primary_inputs.zip primary_targets).map (fun p => (p.1, p.2, primaryPredict p.1))).filter
    (fun q => countWithinTolerance tolerance q.2.2 q.2.1 == q.2.1.length)).map
    (fun q => (q.1, q.2.1.dropLast))).unzip

/-- `TrainableRetryNeuralNetwork::train` (retry_nn.rs lines 374-475) together with
the dispatch of `backup_nn.train`: under 100 examples return `0.0` untouched;
otherwise train a throwaway probe of the un-augmented shape on the full dataset,
train the primary on the label-augmented set, train the backup on the filtered set,
and return the sum of the two reported accuracies. -/
def TrainableRetryNeuralNetwork.train (ops : StageOps σ) :
    TRNN σ → List (List ℚ) → List (List ℚ) → ℚ → ℕ → ℚ → Bool → ℚ → ℚ × TRNN σ
  | .classic s, inputs, targets, learning_rate, epochs, tolerance, use_adam, validation_split =>
    let r := ops.train s inputs targets learning_rate epochs tolerance use_adam validation_split
    (r.1, .classic r.2)
  | .retry primary_nn backup_nn shape model_directory past, inputs, targets,
      learning_rate, epochs, tolerance, use_adam, validation_split =>
    if inputs.length < 100 then
      (0, .retry primary_nn backup_nn shape model_directory past)
    else
      let temp_neural_network := ops.newStage shape (model_directory.path ++ ["temp_primary"])
      let temp_trained := (ops.train temp_neural_network inputs targets
        learning_rate epochs tolerance use_adam validation_split).2
      let primarySet := TrainableRetryNeuralNetwork.primaryTrainingSet
        (ops.predict temp_trained) tolerance inputs targets
      let primaryResult := ops.train primary_nn primarySet.1 primarySet.2
        learning_rate epochs tolerance use_adam validation_split
      let backupSet := TrainableRetryNeuralNetwork.backupTrainingSet
        (ops.predict primaryResult.2) tolerance primarySet.1 primarySet.2
      let backupResult := TrainableRetryNeuralNetwork.train ops backup_nn backupSet.1 backupSet.2
        learning_rate epochs tolerance use_adam validation_split
      (primaryResult.1 + backupResult.1,
        .retry primaryResult.2 backupResult.2 shape model_directory past)

/-- `TrainableRetryNeuralNetwork::train_batch` (retry_nn.rs lines 477-494): forwards
to the primary stage's batch trainer only. -/
def TrainableRetryNeuralNetwork.train_batch (ops : StageOps σ) :
    TRNN σ → List (List ℚ) → List (List ℚ) → ℚ → ℕ → ℚ → ℕ → TRNN σ
  | .classic s, inputs, targets, learning_rate, epochs, tolerance, batch_size =>
    .classic (ops.trainBatch s inputs targets learning_rate epochs tolerance batch_size)
  | .retry primary_nn backup_nn shape model_directory past, inputs, targets,
      learning_rate, epochs, tolerance, batch_size =>
    .retry (ops.trainBatch primary_nn inputs targets learning_rate epochs tolerance batch_size)
      backup_nn shape model_directory past

/-- `TrainableRetryNeuralNetwork::duplicate` (retry_nn.rs lines 364-366): the body is
`unimplemented!()`, an unconditional panic, modelled as `none`. -/
def TrainableRetryNeuralNetwork.duplicate (_n : TRNN σ) : Option (TRNN σ) :=
  none

/-- A concrete stage-ops instance over `ℕ` states used by concrete evaluations:
state `0` is a primary whose prediction ends in `9/10`, state `1` a backup leaf
predicting `[7]`, state `2` a primary whose prediction ends exactly at the
escalation boundary `4/5`. -/
def opsDemo : StageOps ℕ where
  newStage := fun _ _ => 0
  shapeOf := fun _ => ⟨[]⟩
  predict := fun s _ => if s = 0 then [5, 9/10] else if s = 2 then [3, 4/5] else [7]
  train := fun s _ _ _ _ _ _ _ => (0, s)
  trainBatch := fun s _ _ _ _ _ _ => s
  saveStage := fun s _ => s

/-- **C1 (counterexample).** The claim asserts one escalation rule,
`|signal - 1.0| < 0.2`, for every cascade node.  On a `TrainableRetryNeuralNetwork`
node whose primary emits signal `9/10` — which satisfies `|9/10 - 1| < 1/5`, so the
claim demands escalation to the backup (which answers `[7]`) — the trainable forward
path does *not* escalate (its test is `|signal| < 0.05`) and returns `[5]` instead. -/
theorem retry_c1_counterexample :
    TrainableRetryNeuralNetwork.forward opsDemo
        (.retry 0 (.classic 1) shapeDemo (.internal ["m"]) []) [0] = [5] ∧
    |([(5 : ℚ), 9/10].getLastD 0) - 1| < 1/5 ∧
    RetryNeuralNetwork.forward opsDemo
        (.retry 0 (.classic 1) shapeDemo (.internal ["m"]) []) [0] = [7] ∧
    ([(5 : ℚ)] : List ℚ) ≠ [7] := by
  have habs1 : ¬ |(9 : ℚ)/10| < 1/20 := by rw [abs_lt]; norm_num
  have habs2 : |(9 : ℚ)/10 - 1| < 1/5 := by rw [abs_lt]; norm_num
  refine ⟨?_, habs2, ?_, by norm_num⟩
  · show (if |(9 : ℚ)/10| < 1/20
        then TrainableRetryNeuralNetwork.forward opsDemo (.classic 1) [0]
        else ([(5 : ℚ), 9/10]).dropLast) = [5]
    rw [if_neg habs1]
    rfl
  · show (if |(9 : ℚ)/10 - 1| < 1/5
        then RetryNeuralNetwork.forward opsDemo (.classic 1) [0]
        else ([(5 : ℚ), 9/10]).dropLast) = [7]
    rw [if_pos habs2]
    rfl

/-- **C1 (amended).** The inference cascade `RetryNeuralNetwork::predict` escalates
to the backup exactly when `|signal - 1.0| < 0.2` (strict: a signal of exactly `4/5`
does not escalate and the escalation channel is discarded), while the trainable
cascade `TrainableRetryNeuralNetwork::predict` instead escalates exactly when
`|signal - 0.0| < 0.05`; in the non-escalating case both return the primary output
with its last (escalation) element removed. -/
theorem retry_c1_amended (ops : StageOps σ) (primary_nn : σ) (backup_nn : TRNN σ)
    (shape : NeuralNetworkShape) (dir : ModelDirectory) (past : List (List String))
    (input : List ℚ) :
    (RetryNeuralNetwork.forward ops (.retry primary_nn backup_nn shape dir past) input
      = if |(ops.predict primary_nn input).getLastD 0 - 1| < 1/5
        then RetryNeuralNetwork.forward ops backup_nn input
        else (ops.predict primary_nn input).dropLast) ∧
    ((ops.predict primary_nn input).getLastD 0 = 4/5 →
      RetryNeuralNetwork.forward ops (.retry primary_nn backup_nn shape dir past) input
        = (ops.predict primary_nn input).dropLast) ∧
    (TrainableRetryNeuralNetwork.forward ops (.retry primary_nn backup_nn shape dir past) input
      = if |(ops.predict primary_nn input).getLastD 0| < 1/20
        then TrainableRetryNeuralNetwork.forward ops backup_nn input
        else (ops.predict primary_nn input).dropLast) := by
  refine ⟨rfl, ?_, rfl⟩
  intro hb
  rw [RetryNeuralNetwork.forward, hb]
  norm_num
  intro h2
  exact absurd h2 (by rw [abs_lt]; norm_num)

/-- Witness for C1 (amended) at the boundary: a primary emitting signal exactly
`4/5` does not escalate. -/
theorem retry_c1_witness :
    opsDemo.predict 2 ([] : List ℚ) = [3, 4/5] ∧
    RetryNeuralNetwork.forward opsDemo
        (.retry 2 (.classic 1) shapeDemo (.internal ["m"]) []) []
      = (opsDemo.predict 2 ([] : List ℚ)).dropLast :=
  ⟨rfl,
    (retry_c1_amended opsDemo 2 (.classic 1) shapeDemo (.internal ["m"]) [] []).2.1 rfl⟩

/-- **C2.** `TrainableRetryNeuralNetwork::train` with fewer than 100 examples
performs no training: it returns exactly `0.0` and leaves the whole cascade node —
primary, backup, and every nested stage — unchanged. -/
theorem retry_c2 (ops : StageOps σ) (primary_nn : σ) (backup_nn : TRNN σ)
    (shape : NeuralNetworkShape) (dir : ModelDirectory) (past : List (List String))
    (inputs targets : List (List ℚ)) (learning_rate : ℚ) (epochs : ℕ) (tolerance : ℚ)
    (use_adam : Bool) (validation_split : ℚ) (h : inputs.length < 100) :
    TrainableRetryNeuralNetwork.train ops (.retry primary_nn backup_nn shape dir past)
        inputs targets learning_rate epochs tolerance use_adam validation_split
      = (0, .retry primary_nn backup_nn shape dir past) := by
  rw [TrainableRetryNeuralNetwork.train]
  simp [h]

/-- Witness for C2: training with 50 identical examples returns `0.0` and the node
is untouched. -/
theorem retry_c2_witness :
    (List.replicate 50 [(1 : ℚ)]).length < 100 ∧
    TrainableRetryNeuralNetwork.train opsDemo
        (.retry 0 (.classic 1) shapeDemo (.internal ["m"]) [])
        (List.replicate 50 [(1 : ℚ)]) (List.replicate 50 [(0 : ℚ)]) (1/100) 100 (1/10) true (7/10)
      = (0, .retry 0 (.classic 1) shapeDemo (.internal ["m"]) []) :=
  ⟨by decide,
    retry_c2 opsDemo 0 (.classic 1) shapeDemo (.internal ["m"]) []
      (List.replicate 50 [(1 : ℚ)]) (List.replicate 50 [(0 : ℚ)]) (1/100) 100 (1/10) true (7/10)
      (by decide)⟩

/-- **C9.** `TrainableRetryNeuralNetwork::train_batch` invokes only the primary
stage's batch trainer; the backup subtree (hence every nested stage below it), the
shape, the location and the historical scratch set are returned unchanged. -/
theorem retry_c9 (ops : StageOps σ) (primary_nn : σ) (backup_nn : TRNN σ)
    (shape : NeuralNetworkShape) (dir : ModelDirectory) (past : List (List String))
    (inputs targets : List (List ℚ)) (learning_rate : ℚ) (epochs : ℕ) (tolerance : ℚ)
    (batch_size : ℕ) :
    TrainableRetryNeuralNetwork.train_batch ops (.retry primary_nn backup_nn shape dir past)
        inputs targets learning_rate epochs tolerance batch_size
      = .retry (ops.trainBatch primary_nn inputs targets learning_rate epochs tolerance batch_size)
          backup_nn shape dir past :=
  rfl

/-- **C10.** The `NeuralNetwork`-trait `duplicate` of `TrainableRetryNeuralNetwork`
is `unimplemented!()`: it never returns a duplicated node, on any input. -/
theorem retry_c10 (σ : Type) (n : TRNN σ) :
    TrainableRetryNeuralNetwork.duplicate n = none :=
  rfl

/-- Spec-side reformulation: the prediction matches the target within tolerance on
all output dimensions (covering every one of them). -/
def matchesAllOutputs (tolerance : ℚ) (prediction target : List ℚ) : Bool :=
  decide (target.length ≤ prediction.length) &&
    (prediction.zip target).all (fun p => decide (|p.1 - p.2| < tolerance))

lemma countWithinTolerance_foldl_acc (tolerance : ℚ) :
    ∀ (l : List (ℚ × ℚ)) (acc : ℕ),
      l.foldl (fun n p => if |p.1 - p.2| < tolerance then n + 1 else n) acc
        = acc + l.countP (fun p => decide (|p.1 - p.2| < tolerance)) := by
  intro l
  induction l with
  | nil => intro acc; simp
  | cons a t ih =>
    intro acc
    rw [List.foldl_cons, ih, List.countP_cons]
    by_cases h : |a.1 - a.2| < tolerance
    · simp [h]; omega
    · simp [h]

lemma countWithinTolerance_eq_countP (tolerance : ℚ) (prediction target : List ℚ) :
    countWithinTolerance tolerance prediction target
      = (prediction.zip target).countP (fun p => decide (|p.1 - p.2| < tolerance)) := by
  rw [countWithinTolerance, countWithinTolerance_foldl_acc, Nat.zero_add]

/-- The source's correctness test `nb_correct_outputs == target.len()` holds exactly
when the prediction matches the target within tolerance on all output dimensions. -/
lemma countWithinTolerance_eq_length_iff (tolerance : ℚ) (prediction target : List ℚ) :
    countWithinTolerance tolerance prediction target = target.length
      ↔ matchesAllOutputs tolerance prediction target = true := by
  rw [countWithinTolerance_eq_countP, matchesAllOutputs]
  constructor
  · intro h
    have hle : (prediction.zip target).countP (fun p => decide (|p.1 - p.2| < tolerance))
        ≤ (prediction.zip target).length := List.countP_le_length _
    rw [List.length_zip] at hle
    have hmin : target.length ≤ prediction.length := by omega
    have hzlen : (prediction.zip target).length = target.length := by
      rw [List.length_zip]; omega
    have hall : ∀ p ∈ prediction.zip target, (fun p => decide (|p.1 - p.2| < tolerance)) p = true := by
      rw [← List.countP_eq_length]
      omega
    simp only [Bool.and_eq_true, decide_eq_true_eq, List.all_eq_true]
    exact ⟨hmin, fun p hp => by simpa using hall p hp⟩
  · intro h
    simp only [Bool.and_eq_true, decide_eq_true_eq, List.all_eq_true] at h
    obtain ⟨hmin, hall⟩ := h
    have hzlen : (prediction.zip target).length = target.length := by
      rw [List.length_zip]; omega
    rw [← hzlen]
    rw [List.countP_eq_length]
    intro p hp
    simpa using hall p hp

lemma countEq_beq_eq_matches (tolerance : ℚ) (prediction target : List ℚ) :
    (countWithinTolerance tolerance prediction target == target.length)
      = matchesAllOutputs tolerance prediction target := by
  cases hb : matchesAllOutputs tolerance prediction target with
  | false =>
    rw [beq_eq_false_iff_ne]
    intro hc
    rw [countWithinTolerance_eq_length_iff] at hc
    rw [hb] at hc
    exact Bool.false_ne_true hc
  | true =>
    rw [beq_iff_eq, countWithinTolerance_eq_length_iff]
    exact hb

lemma zipWith_congr_fn {α β γ : Type} (u v : α → β → γ) (h : ∀ a b, u a b = v a b) :
    ∀ (l₁ : List α) (l₂ : List β), List.zipWith u l₁ l₂ = List.zipWith v l₁ l₂ := by
  intro l₁
  induction l₁ with
  | nil => intro l₂; simp
  | cons a t ih =>
    intro l₂
    cases l₂ with
    | nil => simp
    | cons b w => simp [h, ih]

/-- The primary training set of `train` leaves the inputs unchanged and appends to
each target the escalation label `0`/`1` according to the probe's correctness. -/
lemma primaryTrainingSet_eq (f : List ℚ → List ℚ) (tolerance : ℚ)
    (inputs targets : List (List ℚ)) (hlen : inputs.length = targets.length) :
    TrainableRetryNeuralNetwork.primaryTrainingSet f tolerance inputs targets
      = (inputs,
         List.zipWith (fun i t =>
           t ++ (if matchesAllOutputs tolerance (f i) t then [(0 : ℚ)] else [(1 : ℚ)]))
           inputs targets) := by
  rw [TrainableRetryNeuralNetwork.primaryTrainingSet]
  refine Prod.ext ?_ ?_
  · rw [List.unzip_fst, List.map_map, List.map_map]
    show List.map (fun p : List ℚ × List ℚ => p.1) (inputs.zip targets) = inputs
    exact List.map_fst_zip inputs targets (le_of_eq hlen)
  · rw [List.unzip_snd, List.map_map, List.map_map]
    show List.map (fun p : List ℚ × List ℚ =>
        p.2 ++ (if countWithinTolerance tolerance (f p.1) p.2 = p.2.length
          then [(0 : ℚ)] else [(1 : ℚ)])) (inputs.zip targets)
      = List.zipWith (fun i t =>
          t ++ (if matchesAllOutputs tolerance (f i) t then [(0 : ℚ)] else [(1 : ℚ)]))
          inputs targets
    rw [List.zip, List.map_zipWith]
    refine zipWith_congr_fn _ _ (fun i t => ?_) inputs targets
    show t ++ (if countWithinTolerance tolerance (f i) t = t.length
        then [(0 : ℚ)] else [(1 : ℚ)])
      = t ++ (if matchesAllOutputs tolerance (f i) t then [(0 : ℚ)] else [(1 : ℚ)])
    congr 1
    exact if_congr (countWithinTolerance_eq_length_iff tolerance (f i) t) rfl rfl

/-- The backup training set of `train` is the filter-then-strip of the augmented
set: keep exactly the examples the trained primary answers fully correctly, and
drop the final (escalation) entry of each kept target. -/
lemma backupTrainingSet_eq (g : List ℚ → List ℚ) (tolerance : ℚ)
    (primary_inputs primary_targets : List (List ℚ)) :
    TrainableRetryNeuralNetwork.backupTrainingSet g tolerance primary_inputs primary_targets
      = (((primary_inputs.zip primary_targets).filter
            (fun p => matchesAllOutputs tolerance (g p.1) p.2)).map
          (fun p => (p.1, p.2.dropLast))).unzip := by
  rw [TrainableRetryNeuralNetwork.backupTrainingSet, List.filter_map, List.map_map]
  have hpred : ((fun q : List ℚ × List ℚ × List ℚ =>
        countWithinTolerance tolerance q.2.2 q.2.1 == q.2.1.length) ∘
        (fun p : List ℚ × List ℚ => (p.1, p.2, g p.1)))
      = fun p : List ℚ × List ℚ => matchesAllOutputs tolerance (g p.1) p.2 := by
    funext p
    exact countEq_beq_eq_matches tolerance (g p.1) p.2
  rw [hpred]
  rfl

/-- **C5.** With at least 100 examples, `train` first trains a disposable probe
stage of the un-augmented shape on the full dataset, and the set used to train the
primary keeps every input unchanged and appends to each target an escalation label:
`0` when the probe's prediction matched the target within tolerance on all output
dimensions, `1` otherwise. -/
theorem retry_c5 (ops : StageOps σ) (primary_nn : σ) (backup_nn : TRNN σ)
    (shape : NeuralNetworkShape) (dir : ModelDirectory) (past : List (List String))
    (inputs targets : List (List ℚ)) (learning_rate : ℚ) (epochs : ℕ) (tolerance : ℚ)
    (use_adam : Bool) (validation_split : ℚ)
    (h100 : 100 ≤ inputs.length) (hlen : inputs.length = targets.length) :
    TrainableRetryNeuralNetwork.train ops (.retry primary_nn backup_nn shape dir past)
        inputs targets learning_rate epochs tolerance use_adam validation_split
      = (let temp_trained := (ops.train (ops.newStage shape (dir.path ++ ["temp_primary"]))
            inputs targets learning_rate epochs tolerance use_adam validation_split).2
         let augmented_targets := List.zipWith (fun i t =>
            t ++ (if matchesAllOutputs tolerance (ops.predict temp_trained i) t
              then [(0 : ℚ)] else [(1 : ℚ)])) inputs targets
         let primaryResult := ops.train primary_nn inputs augmented_targets
            learning_rate epochs tolerance use_adam validation_split
         let backupSet := TrainableRetryNeuralNetwork.backupTrainingSet
            (ops.predict primaryResult.2) tolerance inputs augmented_targets
         let backupResult := TrainableRetryNeuralNetwork.train ops backup_nn
            backupSet.1 backupSet.2 learning_rate epochs tolerance use_adam validation_split
         (primaryResult.1 + backupResult.1,
           .retry primaryResult.2 backupResult.2 shape dir past)) := by
  rw [TrainableRetryNeuralNetwork.train, if_neg (Nat.not_lt.mpr h100)]
  simp only [primaryTrainingSet_eq
    (ops.predict ((ops.train (ops.newStage shape (ModelDirectory.path dir ++ ["temp_primary"]))
      inputs targets learning_rate epochs tolerance use_adam validation_split).2))
    tolerance inputs targets hlen]

/-- Witness for C5 at 100 concrete examples. -/
theorem retry_c5_witness :
    100 ≤ (List.replicate 100 [(0 : ℚ)]).length ∧
    (List.replicate 100 [(0 : ℚ)]).length = (List.replicate 100 [(0 : ℚ)]).length ∧
    TrainableRetryNeuralNetwork.train opsDemo
        (.retry 0 (.classic 1) shapeDemo (.internal ["m"]) [])
        (List.replicate 100 [(0 : ℚ)]) (List.replicate 100 [(0 : ℚ)]) (1/100) 10 (1/10) true (7/10)
      = (let temp_trained := (opsDemo.train (opsDemo.newStage shapeDemo
            ((ModelDirectory.internal ["m"]).path ++ ["temp_primary"]))
            (List.replicate 100 [(0 : ℚ)]) (List.replicate 100 [(0 : ℚ)]) (1/100) 10 (1/10) true (7/10)).2
         let augmented_targets := List.zipWith (fun i t =>
            t ++ (if matchesAllOutputs (1/10) (opsDemo.predict temp_trained i) t
              then [(0 : ℚ)] else [(1 : ℚ)]))
            (List.replicate 100 [(0 : ℚ)]) (List.replicate 100 [(0 : ℚ)])
         let primaryResult := opsDemo.train 0 (List.replicate 100 [(0 : ℚ)]) augmented_targets
            (1/100) 10 (1/10) true (7/10)
         let backupSet := TrainableRetryNeuralNetwork.backupTrainingSet
            (opsDemo.predict primaryResult.2) (1/10) (List.replicate 100 [(0 : ℚ)]) augmented_targets
         let backupResult := TrainableRetryNeuralNetwork.train opsDemo (.classic 1)
            backupSet.1 backupSet.2 (1/100) 10 (1/10) true (7/10)
         (primaryResult.1 + backupResult.1,
           .retry primaryResult.2 backupResult.2 shapeDemo (.internal ["m"]) [])) :=
  ⟨by simp, by simp,
    retry_c5 opsDemo 0 (.classic 1) shapeDemo (.internal ["m"]) []
      (List.replicate 100 [(0 : ℚ)]) (List.replicate 100 [(0 : ℚ)]) (1/100) 10 (1/10) true (7/10)
      (by simp) rfl⟩

/-- **C6.** With at least 100 examples, the backup is trained on exactly those
examples of the augmented set that the already-trained primary answered fully
correctly — every component of its prediction, escalation channel included, within
tolerance of the corresponding augmented target — each with the escalation label
stripped off the target; and `train` returns the unweighted sum of the primary's and
the backup's reported accuracies. -/
theorem retry_c6 (ops : StageOps σ) (primary_nn : σ) (backup_nn : TRNN σ)
    (shape : NeuralNetworkShape) (dir : ModelDirectory) (past : List (List String))
    (inputs targets : List (List ℚ)) (learning_rate : ℚ) (epochs : ℕ) (tolerance : ℚ)
    (use_adam : Bool) (validation_split : ℚ) (h100 : 100 ≤ inputs.length) :
    TrainableRetryNeuralNetwork.train ops (.retry primary_nn backup_nn shape dir past)
        inputs targets learning_rate epochs tolerance use_adam validation_split
      = (let temp_trained := (ops.train (ops.newStage shape (dir.path ++ ["temp_primary"]))
            inputs targets learning_rate epochs tolerance use_adam validation_split).2
         let primarySet := TrainableRetryNeuralNetwork.primaryTrainingSet
            (ops.predict temp_trained) tolerance inputs targets
         let primaryResult := ops.train primary_nn primarySet.1 primarySet.2
            learning_rate epochs tolerance use_adam validation_split
         let backupSet := (((primarySet.1.zip primarySet.2).filter
              (fun p => matchesAllOutputs tolerance (ops.predict primaryResult.2 p.1) p.2)).map
            (fun p => (p.1, p.2.dropLast))).unzip
         let backupResult := TrainableRetryNeuralNetwork.train ops backup_nn
            backupSet.1 backupSet.2 learning_rate epochs tolerance use_adam validation_split
         (primaryResult.1 + backupResult.1,
           .retry primaryResult.2 backupResult.2 shape dir past)) := by
  rw [TrainableRetryNeuralNetwork.train, if_neg (Nat.not_lt.mpr h100)]
  simp only [backupTrainingSet_eq]

/-- Witness for C6 at 100 concrete examples. -/
theorem retry_c6_witness :
    100 ≤ (List.replicate 100 [(1 : ℚ)]).length ∧
    TrainableRetryNeuralNetwork.train opsDemo
        (.retry 0 (.classic 1) shapeDemo (.internal ["m"]) [])
        (List.replicate 100 [(1 : ℚ)]) (List.replicate 100 [(0 : ℚ)]) (1/100) 10 (1/10) true (7/10)
      = (let temp_trained := (opsDemo.train (opsDemo.newStage shapeDemo
            ((ModelDirectory.internal ["m"]).path ++ ["temp_primary"]))
            (List.replicate 100 [(1 : ℚ)]) (List.replicate 100 [(0 : ℚ)]) (1/100) 10 (1/10) true (7/10)).2
         let primarySet := TrainableRetryNeuralNetwork.primaryTrainingSet
            (opsDemo.predict temp_trained) (1/10)
            (List.replicate 100 [(1 : ℚ)]) (List.replicate 100 [(0 : ℚ)])
         let primaryResult := opsDemo.train 0 primarySet.1 primarySet.2 (1/100) 10 (1/10) true (7/10)
         let backupSet := (((primarySet.1.zip primarySet.2).filter
              (fun p => matchesAllOutputs (1/10) (opsDemo.predict primaryResult.2 p.1) p.2)).map
            (fun p => (p.1, p.2.dropLast))).unzip
         let backupResult := TrainableRetryNeuralNetwork.train opsDemo (.classic 1)
            backupSet.1 backupSet.2 (1/100) 10 (1/10) true (7/10)
         (primaryResult.1 + backupResult.1,
           .retry primaryResult.2 backupResult.2 shapeDemo (.internal ["m"]) [])) :=
  ⟨by simp,
    retry_c6 opsDemo 0 (.classic 1) shapeDemo (.internal ["m"]) []
      (List.replicate 100 [(1 : ℚ)]) (List.replicate 100 [(0 : ℚ)]) (1/100) 10 (1/10) true (7/10)
      (by simp)⟩

/-- `append_dir` (retry_nn.rs lines 137-142), at path-component granularity. -/
def append_dir (model_directory : List String) (subdir : String) : List String :=
  model_directory ++ [subdir]

/-- `RetryNeuralNetwork::new` (retry_nn.rs lines 33-67).  The recursion depth is a
natural number: the source matches `1..=i32::MAX` (recurse) and `0` (leaf backup of
the un-augmented shape) and panics on negative levels, which `ℕ` cannot represent.
The `add_internal_dimensions` panic on an empty shape propagates as `none`. -/
def RetryNeuralNetwork.new (ops : StageOps σ) (shape : NeuralNetworkShape) :
    ℕ → List String → Option (TRNN σ)
  | 0, internal_model_directory => do
    let actual_shape ← add_internal_dimensions shape
    let primary_nn := ops.newStage actual_shape (append_dir internal_model_directory "primary")
    let backup_nn : TRNN σ :=
      .classic (ops.newStage shape (append_dir internal_model_directory "backup"))
    some (.retry primary_nn backup_nn shape (.internal internal_model_directory) [])
  | levels + 1, internal_model_directory => do
    let actual_shape ← add_internal_dimensions shape
    let primary_nn := ops.newStage actual_shape (append_dir internal_model_directory "primary")
    let backup_nn ← RetryNeuralNetwork.new ops shape levels
      (append_dir internal_model_directory "backup")
    some (.retry primary_nn backup_nn shape (.internal internal_model_directory) [])

/-- `TrainableRetryNeuralNetwork::new` (retry_nn.rs lines 239-277): identical
structure (sub-directories are wrapped `Directory::Internal` at construction). -/
def TrainableRetryNeuralNetwork.new (ops : StageOps σ) (shape : NeuralNetworkShape) :
    ℕ → List String → Option (TRNN σ)
  | 0, internal_model_directory => do
    let actual_shape ← add_internal_dimensions shape
    let primary_nn := ops.newStage actual_shape (append_dir internal_model_directory "primary")
    let backup_nn : TRNN σ :=
      .classic (ops.newStage shape (append_dir internal_model_directory "backup"))
    some (.retry primary_nn backup_nn shape (.internal internal_model_directory) [])
  | levels + 1, internal_model_directory => do
    let actual_shape ← add_internal_dimensions shape
    let primary_nn := ops.newStage actual_shape (append_dir internal_model_directory "primary")
    let backup_nn ← TrainableRetryNeuralNetwork.new ops shape levels
      (append_dir internal_model_directory "backup")
    some (.retry primary_nn backup_nn shape (.internal internal_model_directory) [])

/-- The stages reached by following backup links from a node (the node itself not
included); empty for a leaf. -/
def TRNN.backupChain : TRNN σ → List (TRNN σ)
  | .classic _ => []
  | .retry _ backup_nn _ _ _ => backup_nn :: backup_nn.backupChain

/-- **C4.** For every `n ≥ 0` and non-empty shape, constructing a cascade node
(plain or trainable) with recursion depth `n` succeeds, and following backup links
from the root reaches exactly `n + 1` stages, the last of which is a plain leaf
stage of the un-augmented shape, terminating the chain.  The hypothesis `hops`
is the stage-collaborator contract that a freshly constructed leaf reports the
shape it was constructed with. -/
theorem retry_c4 (ops : StageOps σ) (shape : NeuralNetworkShape) (h : shape.layers ≠ [])
    (hops : ∀ sh d, ops.shapeOf (ops.newStage sh d) = sh) (n : ℕ) (dir : List String) :
    (∃ t, RetryNeuralNetwork.new ops shape n dir = some t ∧
      t.backupChain.length = n + 1 ∧
      ∃ s, t.backupChain.getLast? = some (.classic s) ∧ ops.shapeOf s = shape) ∧
    (∃ t, TrainableRetryNeuralNetwork.new ops shape n dir = some t ∧
      t.backupChain.length = n + 1 ∧
      ∃ s, t.backupChain.getLast? = some (.classic s) ∧ ops.shapeOf s = shape) := by
  obtain ⟨a, t0, hS⟩ : ∃ a t0, shape.layers = a :: t0 := by
    cases hl : shape.layers with
    | nil => exact absurd hl h
    | cons a t0 => exact ⟨a, t0, rfl⟩
  obtain ⟨S', hS'⟩ : ∃ S', add_internal_dimensions shape = some S' := by
    obtain ⟨ls, rfl⟩ : ∃ ls, shape = ⟨ls⟩ := ⟨shape.layers, rfl⟩
    simp only at hS
    subst hS
    exact ⟨_, add_internal_dimensions_cons a t0⟩
  clear hS h
  induction n generalizing dir with
  | zero =>
    constructor
    · refine ⟨.retry (ops.newStage S' (append_dir dir "primary"))
        (.classic (ops.newStage shape (append_dir dir "backup"))) shape (.internal dir) [],
        ?_, by simp [TRNN.backupChain], ?_⟩
      · rw [RetryNeuralNetwork.new, hS']
        rfl
      · exact ⟨ops.newStage shape (append_dir dir "backup"), by simp [TRNN.backupChain],
          hops shape (append_dir dir "backup")⟩
    · refine ⟨.retry (ops.newStage S' (append_dir dir "primary"))
        (.classic (ops.newStage shape (append_dir dir "backup"))) shape (.internal dir) [],
        ?_, by simp [TRNN.backupChain], ?_⟩
      · rw [TrainableRetryNeuralNetwork.new, hS']
        rfl
      · exact ⟨ops.newStage shape (append_dir dir "backup"), by simp [TRNN.backupChain],
          hops shape (append_dir dir "backup")⟩
  | succ n ih =>
    obtain ⟨⟨t₁, ht₁, hlen₁, s₁, hlast₁, hshape₁⟩, t₂, ht₂, hlen₂, s₂, hlast₂, hshape₂⟩ :=
      ih (append_dir dir "backup")
    constructor
    · refine ⟨.retry (ops.newStage S' (append_dir dir "primary")) t₁ shape (.internal dir) [],
        ?_, ?_, ?_⟩
      · rw [RetryNeuralNetwork.new, hS']
        show (RetryNeuralNetwork.new ops shape n (append_dir dir "backup")).bind _ = _
        rw [ht₁]
        rfl
      · show (t₁ :: t₁.backupChain).length = (n + 1) + 1
        rw [List.length_cons, hlen₁]
      · have hne : t₁.backupChain ≠ [] := by
          rw [← List.length_pos, hlen₁]; omega
        obtain ⟨b, u, hbu⟩ := List.exists_cons_of_ne_nil hne
        refine ⟨s₁, ?_, hshape₁⟩
        show (t₁ :: t₁.backupChain).getLast? = some (.classic s₁)
        rw [hbu, List.getLast?_cons_cons, ← hbu]
        exact hlast₁
    · refine ⟨.retry (ops.newStage S' (append_dir dir "primary")) t₂ shape (.internal dir) [],
        ?_, ?_, ?_⟩
      · rw [TrainableRetryNeuralNetwork.new, hS']
        show (TrainableRetryNeuralNetwork.new ops shape n (append_dir dir "backup")).bind _ = _
        rw [ht₂]
        rfl
      · show (t₂ :: t₂.backupChain).length = (n + 1) + 1
        rw [List.length_cons, hlen₂]
      · have hne : t₂.backupChain ≠ [] := by
          rw [← List.length_pos, hlen₂]; omega
        obtain ⟨b, u, hbu⟩ := List.exists_cons_of_ne_nil hne
        refine ⟨s₂, ?_, hshape₂⟩
        show (t₂ :: t₂.backupChain).getLast? = some (.classic s₂)
        rw [hbu, List.getLast?_cons_cons, ← hbu]
        exact hlast₂

/-- A stage-ops instance whose leaf states record the shape and directory they were
constructed with, so the collaborator contract of `retry_c4` holds definitionally. -/
def opsPair : StageOps (NeuralNetworkShape × List String) where
  newStage := fun sh d => (sh, d)
  shapeOf := Prod.fst
  predict := fun _ _ => []
  train := fun s _ _ _ _ _ _ _ => (0, s)
  trainBatch := fun s _ _ _ _ _ _ => s
  saveStage := fun s _ => s

/-- Witness for C4 at depth 2 over the concrete two-layer shape. -/
theorem retry_c4_witness :
    shapeDemo.layers ≠ [] ∧
    (∀ sh d, opsPair.shapeOf (opsPair.newStage sh d) = sh) ∧
    ((∃ t, RetryNeuralNetwork.new opsPair shapeDemo 2 ["root"] = some t ∧
      t.backupChain.length = 2 + 1 ∧
      ∃ s, t.backupChain.getLast? = some (.classic s) ∧ opsPair.shapeOf s = shapeDemo) ∧
    (∃ t, TrainableRetryNeuralNetwork.new opsPair shapeDemo 2 ["root"] = some t ∧
      t.backupChain.length = 2 + 1 ∧
      ∃ s, t.backupChain.getLast? = some (.classic s) ∧ opsPair.shapeOf s = shapeDemo)) :=
  ⟨by decide, fun sh d => rfl,
    retry_c4 opsPair shapeDemo (by decide) (fun sh d => rfl) 2 ["root"]⟩

/-- Directory existence on a disk modelled as the list of directory-tree roots
materialised by leaf saves: a directory exists when it is an ancestor of (or equal
to) some materialised root — `create_dir_all` creates every ancestor. -/
def dirExists (fs : List (List String)) (p : List String) : Bool :=
  fs.any (fun q => p.isPrefixOf q)

/-- Net filesystem effect of a leaf stage save (`TrainableNeuralNetwork::save`,
neuralnet.rs lines 502-524): the previous tree at the target is staged to
`<path>_backup`, the target is recreated and written, and the staging copy removed —
so afterwards a fresh tree is materialised at the path and nothing outside the
path's subtree changed. -/
def classicSaveFS (p : List String) (fs : List (List String)) : List (List String) :=
  p :: fs.filter (fun q => !(p.isPrefixOf q))

/-- `TrainableRetryNeuralNetwork::save` (retry_nn.rs lines 331-342), with the
filesystem threaded through (the identically structured `RetryNeuralNetwork::save`
is at lines 153-164): push the current path onto the historical-scratch set when the
location is `Internal`, set the location to `User(new_path)`, save the primary stage
under `new_path/primary` and the backup under `new_path/backup`. -/
def TrainableRetryNeuralNetwork.save (ops : StageOps σ) :
    TRNN σ → List String → List (List String) → TRNN σ × List (List String)
  | .classic s, user_model_directory, fs =>
    (.classic (ops.saveStage s user_model_directory), classicSaveFS user_model_directory fs)
  | .retry primary_nn backup_nn shape model_directory past, user_model_directory, fs =>
    let past' := match model_directory with
      | .internal _ => past ++ [model_directory.path]
      | .user _ => past
    let primary_user_model_directory := append_dir user_model_directory "primary"
    let primary_saved := ops.saveStage primary_nn primary_user_model_directory
    let fs1 := classicSaveFS primary_user_model_directory fs
    let backup_user_model_directory := append_dir user_model_directory "backup"
    let r := TrainableRetryNeuralNetwork.save ops backup_nn backup_user_model_directory fs1
    (.retry primary_saved r.1 shape (.user user_model_directory) past', r.2)

/-- After saving any subtree at `p`, some materialised root lies below `p` (so `p`
exists as a directory). -/
lemma save_creates_root (ops : StageOps σ) :
    ∀ (t : TRNN σ) (p : List String) (fs : List (List String)),
      ∃ q ∈ (TrainableRetryNeuralNetwork.save ops t p fs).2, p <+: q := by
  intro t
  induction t with
  | classic s => intro p fs; exact ⟨p, by simp [TrainableRetryNeuralNetwork.save, classicSaveFS],
      List.prefix_refl p⟩
  | retry primary_nn backup_nn shape model_directory past ih =>
    intro p fs
    obtain ⟨q, hq, hpre⟩ := ih (append_dir p "backup")
      (classicSaveFS (append_dir p "primary") fs)
    exact ⟨q, hq, List.IsPrefix.trans (List.prefix_append p ["backup"]) hpre⟩

/-- Saving at `p` preserves every materialised root outside `p`'s subtree: `save`
deletes nothing except stale content below the paths it writes. -/
lemma save_preserves_outside (ops : StageOps σ) :
    ∀ (t : TRNN σ) (p : List String) (fs : List (List String)) (q : List String),
      q ∈ fs → ¬ p <+: q → q ∈ (TrainableRetryNeuralNetwork.save ops t p fs).2 := by
  intro t
  induction t with
  | classic s =>
    intro p fs q hq hnq
    simp only [TrainableRetryNeuralNetwork.save, classicSaveFS]
    refine List.mem_cons_of_mem _ (List.mem_filter.mpr ⟨hq, ?_⟩)
    simp only [Bool.not_eq_eq_eq_not, Bool.not_true, ← Bool.not_eq_true]
    intro hc
    exact hnq (List.isPrefixOf_iff_prefix.mp (by simpa using hc))
  | retry primary_nn backup_nn shape model_directory past ih =>
    intro p fs q hq hnq
    have h1 : q ∈ classicSaveFS (append_dir p "primary") fs := by
      refine List.mem_cons_of_mem _ (List.mem_filter.mpr ⟨hq, ?_⟩)
      simp only [Bool.not_eq_eq_eq_not, Bool.not_true, ← Bool.not_eq_true]
      intro hc
      exact hnq (List.IsPrefix.trans (List.prefix_append p ["primary"])
        (List.isPrefixOf_iff_prefix.mp (by simpa using hc)))
    exact ih (append_dir p "backup") (classicSaveFS (append_dir p "primary") fs) q h1
      (fun hc => hnq (List.IsPrefix.trans (List.prefix_append p ["backup"]) hc))

/-- **C7 (amended).** For a scratch cascade node at path `D`, `save(P)` appends `D`
to the historical-scratch set, sets the location to persisted at `P`, recursively
saves the primary stage under `P/primary` and the backup under `P/backup`, and
afterwards `P` exists on disk with `primary` and `backup` sub-paths; `save` itself
deletes nothing outside the subtree of `P` — in particular a previously materialised
scratch path outside `P` remains on disk until teardown removes it (it is *not*
deleted by `save`, contrary to the original claim). -/
theorem retry_c7_amended (ops : StageOps σ) (primary_nn : σ) (backup_nn : TRNN σ)
    (shape : NeuralNetworkShape) (D : List String) (past : List (List String))
    (P : List String) (fs : List (List String)) (q : List String)
    (hq : q ∈ fs) (hnq : ¬ P <+: q) :
    (TrainableRetryNeuralNetwork.save ops
        (.retry primary_nn backup_nn shape (.internal D) past) P fs).1
      = .retry (ops.saveStage primary_nn (append_dir P "primary"))
          (TrainableRetryNeuralNetwork.save ops backup_nn (append_dir P "backup")
            (classicSaveFS (append_dir P "primary") fs)).1
          shape (.user P) (past ++ [D]) ∧
    dirExists (TrainableRetryNeuralNetwork.save ops
        (.retry primary_nn backup_nn shape (.internal D) past) P fs).2
      (append_dir P "primary") = true ∧
    dirExists (TrainableRetryNeuralNetwork.save ops
        (.retry primary_nn backup_nn shape (.internal D) past) P fs).2
      (append_dir P "backup") = true ∧
    q ∈ (TrainableRetryNeuralNetwork.save ops
        (.retry primary_nn backup_nn shape (.internal D) past) P fs).2 := by
  have hfs2 : (TrainableRetryNeuralNetwork.save ops
      (.retry primary_nn backup_nn shape (.internal D) past) P fs).2
      = (TrainableRetryNeuralNetwork.save ops backup_nn (append_dir P "backup")
          (classicSaveFS (append_dir P "primary") fs)).2 := rfl
  refine ⟨rfl, ?_, ?_, ?_⟩
  · rw [hfs2, dirExists, List.any_eq_true]
    have hmem : append_dir P "primary" ∈ classicSaveFS (append_dir P "primary") fs :=
      List.mem_cons_self _ _
    have hkept : append_dir P "primary"
        ∈ (TrainableRetryNeuralNetwork.save ops backup_nn (append_dir P "backup")
            (classicSaveFS (append_dir P "primary") fs)).2 := by
      refine save_preserves_outside ops backup_nn (append_dir P "backup") _ _ hmem ?_
      intro hc
      rw [append_dir, append_dir, List.prefix_append_right_inj] at hc
      have : ("backup" : String) = "primary" := by
        cases hc with
        | intro u hu => injection hu with h1 _
      exact absurd this (by decide)
    exact ⟨append_dir P "primary", hkept,
      List.isPrefixOf_iff_prefix.mpr (List.prefix_refl _)⟩
  · rw [hfs2, dirExists, List.any_eq_true]
    obtain ⟨r, hr, hpre⟩ := save_creates_root ops backup_nn (append_dir P "backup")
      (classicSaveFS (append_dir P "primary") fs)
    exact ⟨r, hr, List.isPrefixOf_iff_prefix.mpr hpre⟩
  · rw [hfs2]
    have h1 : q ∈ classicSaveFS (append_dir P "primary") fs := by
      refine List.mem_cons_of_mem _ (List.mem_filter.mpr ⟨hq, ?_⟩)
      simp only [Bool.not_eq_eq_eq_not, Bool.not_true, ← Bool.not_eq_true]
      intro hc
      exact hnq (List.IsPrefix.trans (List.prefix_append P ["primary"])
        (List.isPrefixOf_iff_prefix.mp (by simpa using hc)))
    refine save_preserves_outside ops backup_nn (append_dir P "backup") _ _ h1 ?_
    intro hc
    exact hnq (List.IsPrefix.trans (List.prefix_append P ["backup"]) hc)

/-- Witness for C7 (amended) on a concrete scratch node, new path, disk and outside
root. -/
theorem retry_c7_witness :
    (["other"] : List String) ∈ [["other"]] ∧
    ¬ (["P"] : List String) <+: ["other"] ∧
    ["other"] ∈ (TrainableRetryNeuralNetwork.save opsDemo
        (.retry 0 (.classic 1) shapeDemo (.internal ["dup0"]) []) ["P"] [["other"]]).2 :=
  ⟨by decide, by decide,
    (retry_c7_amended opsDemo 0 (.classic 1) shapeDemo ["dup0"] [] ["P"] [["other"]]
      ["other"] (by decide) (by decide)).2.2.2⟩

/-- **C7 (counterexample).** The original claim asserts that after `save(P)` on a
scratch node "no leftover prior path remains on disk".  `save` performs no deletion
of the prior scratch path (it only records it in the historical-scratch set, for
teardown).  A scratch node whose path `dup0` is already materialised on disk — as
`duplicate_trainable` (retry_nn.rs lines 504-515) produces — still has `dup0` on
disk after `save(P)`. -/
theorem retry_c7_counterexample :
    dirExists ((TrainableRetryNeuralNetwork.save opsDemo
        (.retry 0 (.classic 1) shapeDemo (.internal ["dup0"]) []) ["P"] [["dup0"]]).2)
      ["dup0"] = true ∧
    (["dup0"] : List String) ≠ ["P"] ∧
    (TrainableRetryNeuralNetwork.save opsDemo
        (.retry 0 (.classic 1) shapeDemo (.internal ["dup0"]) []) ["P"] [["dup0"]]).1
      = .retry 0 (.classic 1) shapeDemo (.user ["P"]) [["dup0"]] := by
  refine ⟨by decide, by decide, rfl⟩

/-- A disk for the teardown model: the materialised directory trees plus the set of
paths whose removal fails (e.g. permission errors). -/
structure DiskState where
  present : List (List String)
  failing : List (List String)
deriving DecidableEq

/-- `std::fs::remove_dir_all`: fails on paths in `failing`, otherwise removes the
tree rooted at the path. -/
def removeDirAll (disk : DiskState) (p : List String) : Option DiskState :=
  if p ∈ disk.failing then none
  else some { disk with present := disk.present.filter (fun q => !(p.isPrefixOf q)) }

/-- `std::fs::metadata(dir).is_ok()`. -/
def metadataOk (disk : DiskState) (p : List String) : Bool :=
  dirExists disk.present p

/-- The historical-scratch loop of `Drop` (retry_nn.rs lines 534-539): delete each
past path distinct from the current path and present on disk.  The source unwraps
each removal, so the first failure panics; the panic is modelled as `some
abortedPath` and the remaining iterations do not run. -/
def removePastDirs (current : List String) :
    List (List String) → DiskState → DiskState × Option (List String)
  | [], disk => (disk, none)
  | d :: rest, disk =>
    if d ≠ current ∧ metadataOk disk d then
      match removeDirAll disk d with
      | none => (disk, some d)
      | some disk' => removePastDirs current rest disk'
    else removePastDirs current rest disk

/-- The body of `impl Drop for TrainableRetryNeuralNetwork` (retry_nn.rs lines
518-541; `RetryNeuralNetwork`'s is identical, lines 203-226).  A `User`-located node
ensures its directory exists and flushes (`deallocate`; directory creation modelled
as succeeding); an `Internal` (scratch) node removes its own directory if present —
`remove_dir_all(dir).unwrap()`, so a failure panics, modelled as `some path` with no
further cleanup — then the historical-scratch loop runs.  Field drops (primary,
backup) follow the body and are outside this model. -/
def TRNN.dropCleanup : TRNN σ → DiskState → DiskState × Option (List String)
  | .classic _, disk => (disk, none)
  | .retry _ _ _ model_directory past, disk =>
    match model_directory with
    | .user p =>
      let disk1 := if metadataOk disk p then disk
        else { disk with present := p :: disk.present }
      removePastDirs p past disk1
    | .internal d =>
      if metadataOk disk d then
        match removeDirAll disk d with
        | none => (disk, some d)
        | some disk2 => removePastDirs d past disk2
      else removePastDirs d past disk

/-- **C8.** The claim says every teardown deletion is best-effort: one failing
deletion must not abort teardown nor prevent cleanup of the remaining sibling
resources.  The code instead calls `remove_dir_all(dir).unwrap()`: on a scratch node
at `d1` (present on disk, removal failing) with historical scratch path `d2` (present
on disk), teardown panics at `d1` and the loop that would delete `d2` never runs —
`d2` remains on disk. -/
theorem retry_c8_teardown_abort :
    TRNN.dropCleanup (σ := ℕ)
        (.retry 0 (.classic 1) shapeDemo (.internal ["d1"]) [["d2"]])
        { present := [["d1"], ["d2"]], failing := [["d1"]] }
      = ({ present := [["d1"], ["d2"]], failing := [["d1"]] }, some ["d1"]) ∧
    dirExists (TRNN.dropCleanup (σ := ℕ)
        (.retry 0 (.classic 1) shapeDemo (.internal ["d1"]) [["d2"]])
        { present := [["d1"], ["d2"]], failing := [["d1"]] }).1.present ["d2"] = true ∧
    (["d2"] : List String) ≠ ["d1"] := by
  refine ⟨by decide, by decide, by decide⟩
